import Mathlib

/-!
Verification development for the `usb_pd_parser` repository.

The Python sources under `usb_pd_parser/parser/` are shallowly embedded
below: pure functions become Lean functions, PDF page sources become
`List (Option String)` (the per-page extracted text, `none` when the page
yields no text object), dict-shaped records become structures, Python sets
become `Finset`, and Python float arithmetic on exact integer data is
modelled with `ℚ`.  Strings are processed as `List Char`, matching
Python's per-character string handling.
-/

namespace USBPDParser

/-- Python whitespace as used by `str.strip` and the regex class `\s`. -/
def isPySpace (c : Char) : Bool :=
  c == ' ' || c == '\t' || c == '\n' || c == '\r' || c == '\x0b' || c == '\x0c'

/-- ASCII decimal digit, the regex class `\d` on the ASCII input handled here. -/
def isDigitCh (c : Char) : Bool :=
  48 ≤ c.toNat && c.toNat ≤ 57

/-- Python `str.strip()`: drop leading and trailing whitespace. -/
def stripChars (l : List Char) : List Char :=
  ((l.dropWhile isPySpace).reverse.dropWhile isPySpace).reverse

/-- Auxiliary recursion for `splitCh`, carrying the current field (reversed). -/
def splitChAux (sep : Char) : List Char → List Char → List (List Char)
  | [], acc => [acc.reverse]
  | c :: rest, acc =>
      if c = sep then acc.reverse :: splitChAux sep rest []
      else splitChAux sep rest (c :: acc)

/-- Python `s.split(sep)` for a one-character separator: keeps empty fields,
and the split of the empty string is `[""]`. -/
def splitCh (sep : Char) (l : List Char) : List (List Char) :=
  splitChAux sep l []

/-- Python `int(s)` on the digit strings produced by the `\d+` regex groups. -/
def natOfChars (l : List Char) : Nat :=
  l.foldl (fun a c => a * 10 + (c.toNat - 48)) 0

/-- Python `s.count(sub)` for the one-character needle `'.'`. -/
def countCh (sep : Char) : List Char → Nat
  | [] => 0
  | c :: rest => (if c = sep then 1 else 0) + countCh sep rest

/-- The numeric path of a section id: `[int(n) for n in s.split(".")]`
(`core.py` and `validation.py` recompute this at every use site). -/
def idParts (s : String) : List Nat :=
  (splitCh '.' s.toList).map natOfChars

/-- Length of the longest common prefix: the `common_len` loop shared by
`_is_next_section` (`core.py`) and `has_gap` (`validation.py`), which counts
equal components from the front and breaks at the first difference. -/
def commonLen : List Nat → List Nat → Nat
  | [], _ => 0
  | _ :: _, [] => 0
  | a :: as, b :: bs => if a = b then commonLen as bs + 1 else 0

/-- One TOC heading record as built by `extract_toc_entry` (`utils.py`). -/
structure TocEntry where
  doc_title : String
  section_id : String
  title : String
  page : Nat
  level : Nat
  parent_id : Option String
  full_path : String
  tags : List String
deriving DecidableEq, Repr

/-- One section record: a field-for-field copy of a `TocEntry` plus the
extracted `content` (`extract_sections` in `core.py` does
`toc_entry.copy()` and then attaches `content`). -/
structure SectionEntry where
  doc_title : String
  section_id : String
  title : String
  page : Nat
  level : Nat
  parent_id : Option String
  full_path : String
  tags : List String
  content : String
deriving DecidableEq, Repr

/-- The copy-and-attach step of `extract_sections` (`core.py` lines 65-66). -/
def mkSectionEntry (t : TocEntry) (c : String) : SectionEntry :=
  { doc_title := t.doc_title, section_id := t.section_id, title := t.title,
    page := t.page, level := t.level, parent_id := t.parent_id,
    full_path := t.full_path, tags := t.tags, content := c }

/-- The heading part of a `SectionEntry`, forgetting `content`. -/
def SectionEntry.heading (s : SectionEntry) : TocEntry :=
  { doc_title := s.doc_title, section_id := s.section_id, title := s.title,
    page := s.page, level := s.level, parent_id := s.parent_id,
    full_path := s.full_path, tags := s.tags }

/-- `USBPDParser._is_next_section` (`core.py` lines 106-127): decides whether
`next_id` closes the content span of `current_id`.  Returns `true` when the
candidate's path is at most `current_level` long; returns `false` only when
the candidate is a direct child of the current section; every other
candidate (including deeper descendants) returns `true`. -/
def is_next_section (current_id next_id : String) (current_level : Nat) : Bool :=
  let current_parts := idParts current_id
  let next_parts := idParts next_id
  let common_len := commonLen current_parts next_parts
  if next_parts.length ≤ current_level then true
  else if next_parts.length = current_parts.length + 1 ∧ common_len = current_parts.length then
    false
  else true

/-- `USBPDParser._find_section_end_page` (`core.py` lines 89-104): walk the
whole `toc_entries` list from its start, skip entries with the current id,
and return the page of the first entry satisfying `_is_next_section`;
fall back to the total page count. -/
def find_section_end_page (totalPages : Nat) (toc_entries : List TocEntry)
    (current : TocEntry) : Nat :=
  match toc_entries.find? (fun e =>
      e.section_id != current.section_id &&
      is_next_section current.section_id e.section_id current.level) with
  | some e => e.page
  | none => totalPages

/-- Page indexes visited by the `_extract_section_content` loop (`core.py`
lines 79-81): `range(start_page - 1, end_page)` with the `break` once the
index reaches the page count. -/
def sectionPageIdxs (totalPages : Nat) (toc_entries : List TocEntry)
    (e : TocEntry) : List Nat :=
  let start0 := e.page - 1
  let end_page := find_section_end_page totalPages toc_entries e
  (List.range' start0 (end_page - start0)).takeWhile (fun i => i < totalPages)

/-- Python truthiness of an extracted page text (`if text:`): `none` and the
empty string are falsy. -/
def textTruthy : Option String → Bool
  | none => false
  | some t => t ≠ ""

/-- Python `"\n".join(parts)`. -/
def joinNL : List String → String
  | [] => ""
  | [s] => s
  | s :: rest => s ++ "\n" ++ joinNL rest

/-- `USBPDParser._extract_section_content` (`core.py` lines 73-87): collect
the truthy page texts over the section's page range and join them with a
line break; `None` when no page yielded text. -/
def extract_section_content (pages : List (Option String))
    (toc_entries : List TocEntry) (e : TocEntry) : Option String :=
  let content_parts := (sectionPageIdxs pages.length toc_entries e).filterMap
    (fun i => match pages.getD i none with
      | some t => if t = "" then none else some t
      | none => none)
  if content_parts = [] then none else some (joinNL content_parts)

/-- `USBPDParser.extract_sections` (`core.py` lines 53-71): for each TOC
entry, extract its content; the Python guard `if section_content:` keeps an
entry only when the content is neither `None` nor empty. -/
def extract_sections (pages : List (Option String))
    (toc_entries : List TocEntry) : List SectionEntry :=
  toc_entries.filterMap (fun t =>
    match extract_section_content pages toc_entries t with
    | some c => if c = "" then none else some (mkSectionEntry t c)
    | none => none)

/-- `has_gap` (`validation.py` lines 127-147): a gap exists between two ids
when their paths have equal length, agree on all but the last component
(`common_len == len - 1`), and the last components are not consecutive. -/
def has_gap (current_id next_id : String) : Bool :=
  let current_parts := idParts current_id
  let next_parts := idParts next_id
  let common_len := commonLen current_parts next_parts
  if current_parts.length = next_parts.length then
    if common_len = current_parts.length - 1 then
      if next_parts.getLastD 0 ≠ current_parts.getLastD 0 + 1 then true else false
    else false
  else false

/-- The numeric sort key `[int(n) for n in x["section_id"].split(".")]` used
by `extract_toc` (`core.py` line 48) and `find_section_gaps`
(`validation.py` line 110). -/
def numKey (e : TocEntry) : List Nat := idParts e.section_id

/-- Python list comparison `a <= b` on integer lists: lexicographic with a
strict prefix comparing as smaller. -/
def lexLe : List Nat → List Nat → Bool
  | [], _ => true
  | _ :: _, [] => false
  | a :: as, b :: bs => if a < b then true else if b < a then false else lexLe as bs

/-- Ordering of TOC entries by ascending numeric section id components. -/
def keyLe (a b : TocEntry) : Prop := lexLe (numKey a) (numKey b) = true

instance : DecidableRel keyLe := fun a b => by
  unfold keyLe; infer_instance

/-- One record of the `gaps` list built by `find_section_gaps`
(`validation.py` lines 118-123). -/
structure GapRecord where
  level : Nat
  before_section : String
  after_section : String
  gap_description : String
deriving DecidableEq, Repr

/-- First-occurrence-ordered keys of the `levels` dict built by
`find_section_gaps` (`validation.py` lines 101-106): Python dicts iterate in
insertion order. -/
def levelKeys (entries : List TocEntry) : List Nat :=
  (entries.map (fun e => e.level)).foldl
    (fun acc l => if l ∈ acc then acc else acc ++ [l]) []

/-- Adjacent pairs `(entries[i], entries[i+1])` of a list. -/
def adjPairs {α : Type} : List α → List (α × α)
  | [] => []
  | [_] => []
  | a :: b :: rest => (a, b) :: adjPairs (b :: rest)

/-- `find_section_gaps` (`validation.py` lines 96-125): group entries by
their `level` field (dict insertion order), sort each group by the numeric
section-id key, and flag each adjacent pair with `has_gap`. -/
def find_section_gaps (toc_entries : List TocEntry) : List GapRecord :=
  (levelKeys toc_entries).flatMap (fun lvl =>
    let entries := (toc_entries.filter (fun e => e.level = lvl)).insertionSort keyLe
    (adjPairs entries).filterMap (fun p =>
      if has_gap p.1.section_id p.2.section_id then
        some { level := lvl, before_section := p.1.section_id,
               after_section := p.2.section_id,
               gap_description := "Missing sections between " ++ p.1.section_id
                 ++ " and " ++ p.2.section_id }
      else none))

/-- One record of the `order_issues` list built by `analyze_toc_vs_parsed`
(`validation.py` lines 75-80); `difference` is `abs(toc_page - parsed_page)`. -/
structure OrderIssue where
  section_id : String
  toc_page : Nat
  parsed_page : Nat
  difference : Nat
deriving DecidableEq, Repr

/-- Result record of `analyze_toc_vs_parsed` (`validation.py` lines 85-94).
Python `set` values are modelled as `Finset String`; the float
`coverage_percentage` is modelled exactly in `ℚ`. -/
structure TocAnalysis where
  total_toc_entries : Nat
  total_parsed_entries : Nat
  missing_from_parsed : Finset String
  extra_in_parsed : Finset String
  common_entries : Nat
  order_issues : List OrderIssue
  gaps : List GapRecord
  coverage_percentage : ℚ
deriving DecidableEq

/-- `analyze_toc_vs_parsed` (`validation.py` lines 59-94). -/
def analyze_toc_vs_parsed (toc_entries : List TocEntry)
    (section_entries : List SectionEntry) : TocAnalysis :=
  let toc_ids := (toc_entries.map (fun e => e.section_id)).toFinset
  let parsed_ids := (section_entries.map (fun e => e.section_id)).toFinset
  let common_ids := toc_ids ∩ parsed_ids
  let order_issues := toc_entries.filterMap (fun t =>
    if t.section_id ∈ common_ids then
      match section_entries.find? (fun s => s.section_id = t.section_id) with
      | some p =>
          if t.page ≠ p.page then
            some { section_id := t.section_id, toc_page := t.page,
                   parsed_page := p.page,
                   difference := ((t.page : Int) - (p.page : Int)).natAbs }
          else none
      | none => none
    else none)
  { total_toc_entries := toc_entries.length,
    total_parsed_entries := section_entries.length,
    missing_from_parsed := toc_ids \ parsed_ids,
    extra_in_parsed := parsed_ids \ toc_ids,
    common_entries := common_ids.card,
    order_issues := order_issues,
    gaps := find_section_gaps toc_entries,
    coverage_percentage :=
      if toc_ids = ∅ then 0
      else ((common_ids.card : ℚ) / (toc_ids.card : ℚ)) * 100 }

/-- ASCII lower-casing, as applied by `re.IGNORECASE` to the pattern
literals and by `str.lower()` to the ASCII titles tagged here. -/
def lowerCh (c : Char) : Char :=
  if 'A' ≤ c ∧ c ≤ 'Z' then Char.ofNat (c.toNat + 32) else c

/-- Syntax of the regular expressions used in `utils.py`: literals (matched
case-insensitively, for `re.IGNORECASE`), character classes, sequencing,
ordered alternation, greedy and lazy star, and numbered capturing groups. -/
inductive RE where
  | eps : RE
  | lit : Char → RE
  | cls : (Char → Bool) → RE
  | seq : RE → RE → RE
  | alt : RE → RE → RE
  | starG : RE → RE
  | starL : RE → RE
  | group : Nat → RE → RE

/-- Backtracking regex matcher in continuation style, mirroring the Python
`re` engine's leftmost-preference semantics: alternation tries the left arm
first, `starG` prefers one more iteration, `starL` prefers none.  Captures
are recorded when a group's body completes.  The fuel argument only bounds
the recursion; callers pass more fuel than any path can consume, and star
bodies must consume input for the loop to continue (none of the starred
subpatterns below is nullable). -/
def mrun : Nat → RE → List Char → List (Nat × List Char) →
    (List Char → List (Nat × List Char) → Option (List (Nat × List Char))) →
    Option (List (Nat × List Char))
  | 0, _, _, _, _ => none
  | _ + 1, .eps, s, g, k => k s g
  | _ + 1, .lit c, s, g, k =>
      match s with
      | [] => none
      | a :: rest => if lowerCh a = lowerCh c then k rest g else none
  | _ + 1, .cls p, s, g, k =>
      match s with
      | [] => none
      | a :: rest => if p a then k rest g else none
  | f + 1, .seq x y, s, g, k => mrun f x s g (fun s2 g2 => mrun f y s2 g2 k)
  | f + 1, .alt x y, s, g, k =>
      match mrun f x s g k with
      | some r => some r
      | none => mrun f y s g k
  | f + 1, .starG x, s, g, k =>
      match mrun f x s g (fun s2 g2 =>
          if s2.length < s.length then mrun f (.starG x) s2 g2 k else none) with
      | some r => some r
      | none => k s g
  | f + 1, .starL x, s, g, k =>
      match k s g with
      | some r => some r
      | none => mrun f x s g (fun s2 g2 =>
          if s2.length < s.length then mrun f (.starL x) s2 g2 k else none)
  | f + 1, .group n x, s, g, k =>
      mrun f x s g (fun s2 g2 => k s2 ((n, s.take (s.length - s2.length)) :: g2))

/-- Greedy `+`. -/
def plusG (x : RE) : RE := .seq x (.starG x)

/-- Greedy `?`. -/
def optG (x : RE) : RE := .alt x .eps

/-- Sequence a list of regexes. -/
def reSeq (l : List RE) : RE := l.foldr .seq .eps

/-- A literal word, character by character. -/
def litStr (s : String) : RE := reSeq (s.toList.map .lit)

/-- The literal prefix word of pattern 4. -/
def chapterWord : String := "Chapter"

/-- The literal prefix word of pattern 5. -/
def sectionWord : String := "Section"

/-- The class `\d`. -/
def reDigit : RE := .cls isDigitCh

/-- The class `\s`. -/
def reSpace : RE := .cls isPySpace

/-- The metacharacter `.` (any character but a newline). -/
def reDot : RE := .cls (fun c => c != '\n')

/-- The subpattern `\d+(?:\.\d+)*` capturing a dotted section id. -/
def reNum : RE := .seq (plusG reDigit) (.starG (.seq (.lit '.') (plusG reDigit)))

/-- The shared pattern tail `\s*\.+\s*(\d+)$` (group 3 is the page). -/
def tailDots : RE :=
  reSeq [.starG reSpace, plusG (.lit '.'), .starG reSpace, .group 3 (plusG reDigit)]

/-- Pattern `^(\d+(?:\.\d+)*)\s+(.*?)\s*\.+\s*(\d+)$` (`utils.py` line 15). -/
def pat1 : RE :=
  reSeq [.group 1 reNum, plusG reSpace, .group 2 (.starL reDot), tailDots]

/-- Pattern `^(\d+(?:\.\d+)*)\s+(.*?)\s+(\d+)$` (`utils.py` line 17). -/
def pat2 : RE :=
  reSeq [.group 1 reNum, plusG reSpace, .group 2 (.starL reDot), plusG reSpace,
    .group 3 (plusG reDigit)]

/-- Pattern `^(\d+(?:\.\d+)*)\s*\(?(.*?)\)?\s*\.+\s*(\d+)$` (`utils.py` line 19). -/
def pat3 : RE :=
  reSeq [.group 1 reNum, .starG reSpace, optG (.lit '('), .group 2 (.starL reDot),
    optG (.lit ')'), tailDots]

/-- Pattern `^Chapter\s+(\d+)\s+(.*?)\s*\.+\s*(\d+)$` (`utils.py` line 21). -/
def pat4 : RE :=
  reSeq [litStr chapterWord, plusG reSpace, .group 1 (plusG reDigit), plusG reSpace,
    .group 2 (.starL reDot), tailDots]

/-- Pattern `^Section\s+(\d+(?:\.\d+)*)\s+(.*?)\s*\.+\s*(\d+)$` (`utils.py` line 23). -/
def pat5 : RE :=
  reSeq [litStr sectionWord, plusG reSpace, .group 1 reNum, plusG reSpace,
    .group 2 (.starL reDot), tailDots]

/-- The ordered pattern list of `extract_toc_entry` (`utils.py` lines 13-24). -/
def patterns : List RE := [pat1, pat2, pat3, pat4, pat5]

/-- Run one anchored pattern (`re.match` with a trailing `$` on newline-free
lines requires consuming the whole input). -/
def matchGroups (r : RE) (l : List Char) : Option (List (Nat × List Char)) :=
  mrun (100 + 10 * l.length) r l []
    (fun s g => if s.isEmpty then some g else none)

/-- Read one captured group out of a successful match. -/
def getGroup (caps : List (Nat × List Char)) (n : Nat) : List Char :=
  match caps.find? (fun p => p.1 = n) with
  | some p => p.2
  | none => []

/-- Groups `(1, 2, 3)` of the first pattern matching the line, in the fixed
priority order of `utils.py`. -/
def firstMatch : List RE → List Char → Option (List Char × List Char × List Char)
  | [], _ => none
  | r :: rs, l =>
      match matchGroups r l with
      | some g => some (getGroup g 1, getGroup g 2, getGroup g 3)
      | none => firstMatch rs l

/-- The substitution `re.sub(r'^\s*[-–—]\s*', '', title)` (`utils.py`
line 34): without `re.MULTILINE` the anchored pattern can only replace one
leading occurrence. -/
def dropLeadingDash (l : List Char) : List Char :=
  match l.dropWhile isPySpace with
  | c :: tail =>
      if c = '-' ∨ c = '–' ∨ c = '—' then tail.dropWhile isPySpace else l
  | [] => l

/-- Auxiliary recursion for `collapseWs`: the flag records whether the
previous character was part of a whitespace run already emitted as `' '`. -/
def collapseWsAux : Bool → List Char → List Char
  | _, [] => []
  | inRun, c :: rest =>
      if isPySpace c then
        if inRun then collapseWsAux true rest
        else ' ' :: collapseWsAux true rest
      else c :: collapseWsAux false rest

/-- The substitution `re.sub(r'\s+', ' ', title)` (`utils.py` line 35):
each maximal whitespace run becomes a single space. -/
def collapseWs (l : List Char) : List Char := collapseWsAux false l

/-- Python `"." .join(fields)` on character lists. -/
def joinDots : List (List Char) → List Char
  | [] => []
  | [x] => x
  | x :: rest => x ++ '.' :: joinDots rest

/-- Case-insensitive-free substring test: Python `needle in hay`. -/
def startsList : List Char → List Char → Bool
  | [], _ => true
  | _ :: _, [] => false
  | a :: as, b :: bs => a = b && startsList as bs

/-- Python `needle in hay` (substring containment). -/
def containsList (needle : List Char) : List Char → Bool
  | [] => needle.isEmpty
  | c :: rest => startsList needle (c :: rest) || containsList needle rest

/-- `generate_tags` (`utils.py` lines 67-90): keyword groups checked in a
fixed order against the lower-cased title, each contributing one tag. -/
def generate_tags (title : String) : List String :=
  let tl := title.toList.map lowerCh
  let has := fun (w : String) => containsList w.toList tl
  (if has ("power") || has ("voltage") || has ("current") then ["power_management"] else [])
  ++ (if has ("negotiation") || has ("contract") || has ("agreement") then ["negotiation"] else [])
  ++ (if has ("communication") || has ("protocol") || has ("message") then ["communication"] else [])
  ++ (if has ("state") || has ("machine") || has ("transition") then ["state_machine"] else [])
  ++ (if has ("cable") || has ("connector") || has ("plug") then ["hardware"] else [])
  ++ (if has ("compatibility") || has ("revision") || has ("version") then ["compatibility"] else [])
  ++ (if has ("overview") || has ("introduction") || has ("background") then ["overview"] else [])
  ++ (if has ("table") || has ("figure") || has ("diagram") then ["reference"] else [])

/-- Entry construction from the three captured groups (`utils.py` lines
29-56): title cleanup, level and parent derivation, full path, and tags. -/
def mkEntry (doc_title : String) (sid rawTitle pageChars : List Char) : TocEntry :=
  let t1 := stripChars rawTitle
  let t2 := dropLeadingDash t1
  let t3 := collapseWs t2
  let section_id := String.mk sid
  let title := String.mk t3
  let level := countCh '.' sid + 1
  { doc_title := doc_title,
    section_id := section_id,
    title := title,
    page := natOfChars pageChars,
    level := level,
    parent_id :=
      if level > 1 then some (String.mk (joinDots ((splitCh '.' sid).dropLast)))
      else none,
    full_path := section_id ++ " " ++ title,
    tags := generate_tags title }

/-- `extract_toc_entry` (`utils.py` lines 6-65): strip the line, reject the
empty line, try the patterns in order, and build the entry from the first
match.  The trailing `validate_toc_entry` call checks only field presence
and JSON types, which the `TocEntry` structure enforces by construction, so
its failure branch is unreachable and the first match always wins. -/
def extract_toc_entry (line : String) (doc_title : String) : Option TocEntry :=
  let l := stripChars line.toList
  if l.isEmpty then none
  else (firstMatch patterns l).map (fun t => mkEntry doc_title t.1 t.2.1 t.2.2)

/-- The collection loop of `USBPDParser.extract_toc` (`core.py` lines
29-45) before the final sort: pages are scanned up to the configured limit
(the constant `Config.TOC_SCAN_PAGES` lives in a config module not present
in the source tree and is passed here as `toc_scan_pages`); each line that
parses contributes an entry whose `page` field is overwritten with the
1-based number of the page the line was found on. -/
def extract_toc_raw (pages : List (Option String)) (toc_scan_pages : Nat)
    (doc_title : String) : List TocEntry :=
  (List.range (min toc_scan_pages pages.length)).flatMap (fun page_num =>
    match pages.getD page_num none with
    | none => []
    | some text =>
        if text = "" then []
        else ((splitCh '\n' text.toList).map String.mk).filterMap (fun line =>
          (extract_toc_entry line doc_title).map
            (fun e => { e with page := page_num + 1 })))

/-- `USBPDParser.extract_toc` (`core.py` lines 24-51): the collected entries
sorted by the numeric section-id key (`list.sort` is a stable sort; the
insertion sort used here inserts each earlier element before later
key-equal ones, matching that stability). -/
def extract_toc (pages : List (Option String)) (toc_scan_pages : Nat)
    (doc_title : String) : List TocEntry :=
  (extract_toc_raw pages toc_scan_pages doc_title).insertionSort keyLe

/-- A minimal concrete heading for test inputs. -/
def mkHeading (sid : String) (pg lvl : Nat) (par : Option String) : TocEntry :=
  { doc_title := "D", section_id := sid, title := "t", page := pg, level := lvl,
    parent_id := par, full_path := sid, tags := [] }

/-- Heading `1` (page 1, level 1) of the spec's range-resolution example. -/
def c1Top : TocEntry := mkHeading ("1") 1 1 none

/-- Heading `1.1` (page 2, level 2) of the spec's range-resolution example. -/
def c1Sub1 : TocEntry := mkHeading ("1.1") 2 2 (some ("1"))

/-- Heading `1.2` (page 4, level 2) of the spec's range-resolution example. -/
def c1Sub2 : TocEntry := mkHeading ("1.2") 4 2 (some ("1"))

/-- Heading `2` (page 6, level 1) of the spec's range-resolution example. -/
def c1Next : TocEntry := mkHeading ("2") 6 1 none

/-- The ordered heading list of the spec's range-resolution example. -/
def c1Entries : List TocEntry := [c1Top, c1Sub1, c1Sub2, c1Next]

/-- A two-page document in which no page yields text. -/
def c3Pages : List (Option String) := [none, none]

/-- A lone heading starting on page 1. -/
def c3Head : TocEntry := mkHeading ("1") 1 1 none

/-- The heading list containing only `c3Head`. -/
def c3Toc : List TocEntry := [c3Head]

/-- A one-page document whose only line is a TOC entry pointing at page 53. -/
def c4Pages : List (Option String) := [some ("2.1 Foo ..... 53")]

/-- The TOC line of that document. -/
def c4Line : String := "2.1 Foo ..... 53"

/-- A TOC page whose lines arrive in the order `2.10`, `2.2`, `2.9`. -/
def c5Page : List (Option String) :=
  [some ("2.10 A ..... 5\n2.2 B ..... 6\n2.9 C ..... 7")]

/-- Sibling heading `2.1` at level 2. -/
def c7e21 : TocEntry := mkHeading ("2.1") 1 2 (some ("2"))

/-- Sibling heading `2.2` at level 2. -/
def c7e22 : TocEntry := mkHeading ("2.2") 2 2 (some ("2"))

/-- Sibling heading `2.3` at level 2. -/
def c7e23 : TocEntry := mkHeading ("2.3") 3 2 (some ("2"))

/-- Sibling heading `2.4` at level 2. -/
def c7e24 : TocEntry := mkHeading ("2.4") 4 2 (some ("2"))

/-- Level-2 heading `2.9`. -/
def c7e29 : TocEntry := mkHeading ("2.9") 5 2 (some ("2"))

/-- Level-2 heading `3.1`, the first child of the next chapter. -/
def c7e31 : TocEntry := mkHeading ("3.1") 6 2 (some ("3"))

/-- An Annex-prefixed TOC line. -/
def c8AnnexLine : String := "Annex A Safety Requirements ..... 12"

/-- A Chapter-prefixed TOC line. -/
def c8ChapterLine : String := "Chapter 2 Overview ..... 53"

/-- A Section-prefixed TOC line. -/
def c8SectionLine : String := "Section 2.1 Introduction ..... 53"

/-- A level-3 TOC line. -/
def c9LineA : String := "3.1.2 Foo ..... 7"

/-- A level-1 TOC line. -/
def c9LineB : String := "4 Foo ..... 7"

/-- The heading parsed from `c9LineA`. -/
def c9EntryA : TocEntry :=
  { doc_title := "D", section_id := "3.1.2", title := "Foo", page := 7, level := 3,
    parent_id := some ("3.1"), full_path := "3.1.2 Foo", tags := [] }

/-- A two-page document in which every page yields text. -/
def c10Pages : List (Option String) := [some ("x"), some ("y")]

/-- First heading with the duplicated id `1`, starting on page 1. -/
def c10A : TocEntry := mkHeading ("1") 1 1 none

/-- Second heading with the duplicated id `1`, starting on page 2. -/
def c10B : TocEntry := mkHeading ("1") 2 1 none

/-- A heading list with a duplicated section id. -/
def c10TocDup : List TocEntry := [c10A, c10B]

/-- A heading list with unique section ids. -/
def c10TocU : List TocEntry := [c10A]

/-! ### Helper lemmas -/

/-- Splitting never produces an empty field list. -/
theorem splitChAux_ne_nil (sep : Char) : ∀ (l acc : List Char), splitChAux sep l acc ≠ [] := by
  intro l
  induction l with
  | nil => intro acc; simp [splitChAux]
  | cons c rest ih =>
      intro acc
      by_cases h : c = sep
      · simp [splitChAux, h]
      · simp only [splitChAux, if_neg h]
        exact ih _

/-- The numeric path of any section id is nonempty. -/
theorem idParts_ne_nil (s : String) : idParts s ≠ [] := by
  unfold idParts splitCh
  intro h
  rw [List.map_eq_nil_iff] at h
  exact splitChAux_ne_nil _ _ _ h

/-- Auxiliary count for `splitCh_length`. -/
theorem splitChAux_length (sep : Char) : ∀ (l acc : List Char),
    (splitChAux sep l acc).length = countCh sep l + 1 := by
  intro l
  induction l with
  | nil => intro acc; rfl
  | cons c rest ih =>
      intro acc
      by_cases h : c = sep
      · simp only [splitChAux, countCh, if_pos h, List.length_cons, ih]
        omega
      · simp only [splitChAux, countCh, if_neg h, ih]
        omega

/-- A split has one more field than the separator count, as in Python. -/
theorem splitCh_length (sep : Char) (l : List Char) :
    (splitCh sep l).length = countCh sep l + 1 :=
  splitChAux_length sep l []

/-- Python list comparison on integer lists is total. -/
theorem lexLe_total : ∀ (a b : List Nat), lexLe a b = true ∨ lexLe b a = true := by
  intro a
  induction a with
  | nil => intro b; left; rfl
  | cons x as ih =>
      intro b
      cases b with
      | nil => right; rfl
      | cons y bs =>
          rcases lt_trichotomy x y with h | h | h
          · left; simp [lexLe, h]
          · subst h
            rcases ih bs with h2 | h2
            · left; simp [lexLe, lt_irrefl, h2]
            · right; simp [lexLe, lt_irrefl, h2]
          · right; simp [lexLe, h]

/-- Python list comparison on integer lists is transitive. -/
theorem lexLe_trans (a : List Nat) : ∀ (b c : List Nat),
    lexLe a b = true → lexLe b c = true → lexLe a c = true := by
  induction a with
  | nil => intro b c _ _; rfl
  | cons x as ih =>
      intro b c hab hbc
      cases b with
      | nil => simp [lexLe] at hab
      | cons y bs =>
          cases c with
          | nil => simp [lexLe] at hbc
          | cons z cs =>
              simp only [lexLe] at hab hbc ⊢
              rcases lt_trichotomy x y with h1 | h1 | h1
              · rcases lt_trichotomy y z with h2 | h2 | h2
                · simp [h1.trans h2]
                · subst h2; simp [h1]
                · simp [asymm h2, h2] at hbc
              · subst h1
                rcases lt_trichotomy x z with h2 | h2 | h2
                · simp [h2]
                · subst h2
                  simp only [lt_irrefl, if_false] at hab hbc ⊢
                  exact ih bs cs hab hbc
                · simp [asymm h2, h2] at hbc
              · simp [asymm h1, h1] at hab

/-- The `common_len` loop reaches the full length of its first argument
exactly when that argument is an initial segment of the second. -/
theorem commonLen_eq_length_iff : ∀ (a b : List Nat),
    commonLen a b = a.length ↔ a = b.take a.length := by
  intro a
  induction a with
  | nil => intro b; simp [commonLen]
  | cons x as ih =>
      intro b
      cases b with
      | nil => simp [commonLen]
      | cons y bs =>
          simp only [commonLen, List.length_cons, List.take_succ_cons]
          by_cases h : x = y
          · subst h
            simp only [eq_self_iff_true, if_true]
            constructor
            · intro h1
              exact congrArg (List.cons x) ((ih bs).mp (Nat.add_right_cancel h1))
            · intro h1
              injection h1 with _ h2
              rw [(ih bs).mpr h2]
          · simp only [if_neg h]
            constructor
            · intro h1
              exact absurd h1 (by omega)
            · intro h1
              injection h1 with h2 _
              exact absurd h2 h

/-- The `common_len` loop stops exactly one short of the full length iff the
two equal-length paths agree everywhere but differ at the last position. -/
theorem commonLen_pred_iff : ∀ (a b : List Nat), a ≠ [] → a.length = b.length →
    (commonLen a b = a.length - 1 ↔ (a.dropLast = b.dropLast ∧ a ≠ b)) := by
  intro a
  induction a with
  | nil => intro b h; exact absurd rfl h
  | cons x as ih =>
      intro b _ hlen
      cases b with
      | nil => simp at hlen
      | cons y bs =>
          simp only [List.length_cons, Nat.add_right_cancel_iff] at hlen
          cases as with
          | nil =>
              cases bs with
              | cons z zs => simp at hlen
              | nil =>
                  by_cases h : x = y
                  · subst h
                    simp [commonLen]
                  · simp [commonLen, h]
          | cons x2 as2 =>
              cases bs with
              | nil => simp at hlen
              | cons y2 bs2 =>
                  by_cases h : x = y
                  · subst h
                    have hrec := ih (y2 :: bs2) (by simp) (by simpa using hlen)
                    simp only [commonLen, eq_self_iff_true, if_true, List.length_cons,
                      Nat.add_sub_cancel] at hrec ⊢
                    constructor
                    · intro h1
                      have h2 := hrec.mp (Nat.add_right_cancel h1)
                      refine ⟨?_, ?_⟩
                      · rw [List.dropLast_cons₂, List.dropLast_cons₂, h2.1]
                      · intro hcc
                        injection hcc with _ h3
                        exact h2.2 h3
                    · rintro ⟨hd, hne⟩
                      rw [List.dropLast_cons₂, List.dropLast_cons₂] at hd
                      injection hd with _ hd2
                      have hne2 : (x2 :: as2) ≠ (y2 :: bs2) := by
                        intro hcc
                        exact hne (by rw [hcc])
                      have h3 := hrec.mpr ⟨hd2, hne2⟩
                      omega
                  · simp only [commonLen, if_neg h, List.length_cons, Nat.add_sub_cancel]
                    constructor
                    · intro h1
                      exact absurd h1 (by omega)
                    · rintro ⟨hd, _⟩
                      rw [List.dropLast_cons₂, List.dropLast_cons₂] at hd
                      injection hd with h2 _
                      exact absurd h2 h

/-- Every heading returned by the TOC line parser was built by `mkEntry`
from the captured groups of some pattern. -/
theorem extract_toc_entry_shape (line dt : String) (e : TocEntry)
    (h : extract_toc_entry line dt = some e) :
    ∃ sid t p, e = mkEntry dt sid t p := by
  unfold extract_toc_entry at h
  by_cases he : (stripChars line.toList).isEmpty
  · rw [if_pos he] at h
    exact absurd h (by simp)
  · rw [if_neg he] at h
    cases hm : firstMatch patterns (stripChars line.toList) with
    | none => rw [hm] at h; simp at h
    | some t =>
        rw [hm] at h
        exact ⟨t.1, t.2.1, t.2.2, (Option.some.inj h).symm⟩

/-- The `level` field computed by `mkEntry` equals the number of dotted
path components of the stored section id. -/
theorem mkEntry_level (dt : String) (sid t p : List Char) :
    (mkEntry dt sid t p).level = (splitCh '.' (mkEntry dt sid t p).section_id.toList).length := by
  show countCh '.' sid + 1 = (splitCh '.' (String.mk sid).toList).length
  rw [show (String.mk sid).toList = sid from rfl, splitCh_length]

/-- The `parent_id` field computed by `mkEntry` is the dot-join of all but
the last path component, absent at the top level. -/
theorem mkEntry_parent (dt : String) (sid t p : List Char) :
    (mkEntry dt sid t p).parent_id =
      (if 1 < (splitCh '.' (mkEntry dt sid t p).section_id.toList).length then
        some (String.mk (joinDots ((splitCh '.' (mkEntry dt sid t p).section_id.toList).dropLast)))
      else none) := by
  show (if countCh '.' sid + 1 > 1 then
      some (String.mk (joinDots ((splitCh '.' sid).dropLast))) else none) =
    (if 1 < (splitCh '.' sid).length then
      some (String.mk (joinDots ((splitCh '.' sid).dropLast))) else none)
  rw [splitCh_length]

/-- The section extractor returns `None` exactly when no page of the
resolved range yields truthy text. -/
theorem extract_section_content_none_iff (pages : List (Option String))
    (toc_entries : List TocEntry) (e : TocEntry) :
    extract_section_content pages toc_entries e = none ↔
      ∀ i ∈ sectionPageIdxs pages.length toc_entries e,
        textTruthy (pages.getD i none) = false := by
  have hf : ∀ i : Nat, ((match pages.getD i none with
      | some t => if t = "" then none else some t
      | none => none) = (none : Option String)) ↔
      textTruthy (pages.getD i none) = false := by
    intro i
    cases hgi : pages.getD i none with
    | none => simp [textTruthy]
    | some t =>
        by_cases ht : t = ""
        · simp [textTruthy, ht]
        · simp [textTruthy, ht]
  unfold extract_section_content
  by_cases h : (sectionPageIdxs pages.length toc_entries e).filterMap
      (fun i => match pages.getD i none with
        | some t => if t = "" then none else some t
        | none => none) = []
  · rw [if_pos h]
    rw [List.filterMap_eq_nil_iff] at h
    simp only [true_iff]
    intro i hi
    exact (hf i).mp (h i hi)
  · rw [if_neg h]
    constructor
    · intro hc
      exact absurd hc (by simp)
    · intro hall
      exfalso
      apply h
      rw [List.filterMap_eq_nil_iff]
      intro i hi
      exact (hf i).mpr (hall i hi)

/-- Every entry of the extracted section list is the copy of some TOC
entry with its own content attached. -/
theorem mem_extract_sections (pages : List (Option String))
    (toc_entries : List TocEntry) (s : SectionEntry)
    (h : s ∈ extract_sections pages toc_entries) :
    ∃ t ∈ toc_entries,
      s = mkSectionEntry t s.content ∧
      extract_section_content pages toc_entries t = some s.content := by
  unfold extract_sections at h
  rw [List.mem_filterMap] at h
  obtain ⟨t, ht, hf⟩ := h
  cases hc : extract_section_content pages toc_entries t with
  | none => rw [hc] at hf; simp at hf
  | some c =>
      rw [hc] at hf
      have hf2 : (if c = "" then none else some (mkSectionEntry t c)) = some s := hf
      by_cases hce : c = ""
      · rw [if_pos hce] at hf2
        exact absurd hf2 (by simp)
      · rw [if_neg hce] at hf2
        have hs := Option.some.inj hf2
        subst hs
        exact ⟨t, ht, rfl, hc⟩

/-- The heading part of a copied-and-extended entry is the original entry. -/
theorem heading_mkSectionEntry (t : TocEntry) (c : String) :
    (mkSectionEntry t c).heading = t := rfl

/-! ### Claim theorems -/

/-- C1: on the spec's own example `[1(p1,l1), 1.1(p2,l2), 1.2(p4,l2), 2(p6,l1)]`
in a 10-page document, the code resolves the end page of `1.1` to 1 — the
page of the earlier heading `1`, because `_find_section_end_page` walks the
whole entry list from its start rather than forward from the current
heading — where the claim requires 4; resolving `1` does yield 6. -/
theorem c1_end_page_eval :
    find_section_end_page 10 c1Entries c1Sub1 = 1 ∧
    find_section_end_page 10 c1Entries c1Top = 6 := ⟨rfl, rfl⟩

/-- C2 (counterexample): the grandchild `1.1.1` of heading `1` — a strict
descendant at depth two, which the claim says never terminates the span —
is accepted by `_is_next_section` as a span terminator, although it is
neither at same-or-shallower level than 1 nor at direct-child depth. -/
theorem c2_grandchild_closes_span :
    is_next_section ("1") ("1.1.1") 1 = true ∧
    ¬ ((idParts ("1.1.1")).length ≤ 1 ∨
       ((idParts ("1.1.1")).length = (idParts ("1")).length + 1 ∧
        idParts ("1") ≠ (idParts ("1.1.1")).take (idParts ("1")).length)) := by
  exact ⟨rfl, by decide⟩

/-- C2 (amended): a candidate closes the current heading's span exactly when
its path length is at most the current level, or it is NOT a direct child of
the current heading — so strict descendants deeper than one level do close
the span. -/
theorem c2_close_iff_not_direct_child :
    ∀ (current_id next_id : String) (current_level : Nat),
      is_next_section current_id next_id current_level = true ↔
        ((idParts next_id).length ≤ current_level ∨
         ¬ ((idParts next_id).length = (idParts current_id).length + 1 ∧
            idParts current_id = (idParts next_id).take (idParts current_id).length)) := by
  intro cur nxt lvl
  simp only [is_next_section]
  split_ifs with h1 h2
  · constructor
    · intro _; exact Or.inl h1
    · intro _; rfl
  · constructor
    · intro hff; exact absurd hff (by simp)
    · rintro (hA | hB)
      · exact absurd hA h1
      · exact absurd ⟨h2.1, (commonLen_eq_length_iff _ _).mp h2.2⟩ hB
  · constructor
    · intro _
      refine Or.inr ?_
      rintro ⟨hl, ht⟩
      exact h2 ⟨hl, (commonLen_eq_length_iff _ _).mpr ht⟩
    · intro _; rfl

/-- C2 (witness): a sibling-level heading closes the span. -/
theorem c2_witness : is_next_section ("1") ("2") 1 = true :=
  (c2_close_iff_not_direct_child ("1") ("2") 1).mpr (Or.inl (by decide))

/-- C3 (counterexample): for a heading whose resolved range yields no text
(two pages, both without text), the extractor returns `None` — not the
empty string — and the heading is dropped from the section list instead of
being kept as a content-free entry. -/
theorem c3_empty_range_excluded :
    extract_section_content c3Pages c3Toc c3Head = none ∧
    extract_sections c3Pages c3Toc = [] := ⟨rfl, rfl⟩

/-- C3 (amended): the extractor returns `None` exactly when no page of the
resolved range yields truthy text, and such a heading is excluded from the
extracted section set (no error is raised either way). -/
theorem c3_no_text_gives_none :
    ∀ (pages : List (Option String)) (toc_entries : List TocEntry) (e : TocEntry),
      (extract_section_content pages toc_entries e = none ↔
        ∀ i ∈ sectionPageIdxs pages.length toc_entries e,
          textTruthy (pages.getD i none) = false) ∧
      (extract_section_content pages toc_entries e = none →
        ∀ s ∈ extract_sections pages toc_entries, s.heading ≠ e) := by
  intro pages toc e
  refine ⟨extract_section_content_none_iff pages toc e, ?_⟩
  intro hnone s hs hhe
  obtain ⟨t, ht, hmk, hc⟩ := mem_extract_sections pages toc s hs
  have hht : s.heading = t := by rw [hmk]; exact heading_mkSectionEntry t s.content
  rw [hht] at hhe
  rw [hhe] at hc
  rw [hnone] at hc
  exact Option.noConfusion hc

/-- C3 (witness): the amended statement applied to the concrete two-page
textless document. -/
theorem c3_witness : extract_section_content c3Pages c3Toc c3Head = none :=
  (c3_no_text_gives_none c3Pages c3Toc c3Head).1.mpr (by decide)

/-- C4: for a document whose first page consists of the TOC line
`2.1 Foo ..... 53`, the line parser captures page 53, but `extract_toc`
overwrites the `page` field with 1, the number of the page the line was
found on — the heading's page does not equal the captured trailing page
number. -/
theorem c4_page_overwritten :
    (extract_toc c4Pages 12 ("D")).map (fun e => e.page) = [1] ∧
    (extract_toc_entry c4Line ("D")).map (fun e => e.page) = some 53 := ⟨rfl, rfl⟩

/-- C5: the TOC builder's output is always sorted by ascending
component-wise numeric comparison of section ids, and the scan order
`[2.10, 2.2, 2.9]` is returned as `[2.2, 2.9, 2.10]`. -/
theorem c5_output_sorted_numeric :
    (∀ (pages : List (Option String)) (n : Nat) (dt : String),
        List.Sorted keyLe (extract_toc pages n dt)) ∧
    (extract_toc_raw c5Page 12 ("D")).map (fun e => e.section_id) = ["2.10", "2.2", "2.9"] ∧
    (extract_toc c5Page 12 ("D")).map (fun e => e.section_id) = ["2.2", "2.9", "2.10"] := by
  refine ⟨?_, rfl, rfl⟩
  intro pages n dt
  have htot : IsTotal TocEntry keyLe := ⟨fun a b => lexLe_total (numKey a) (numKey b)⟩
  have htr : IsTrans TocEntry keyLe :=
    ⟨fun a b c => lexLe_trans (numKey a) (numKey b) (numKey c)⟩
  exact List.sorted_insertionSort keyLe _

/-- C5 (witness): sortedness at the concrete scan page. -/
theorem c5_witness : List.Sorted keyLe (extract_toc c5Page 12 ("D")) :=
  c5_output_sorted_numeric.1 c5Page 12 ("D")

/-- C6: the reconciliation coverage always equals the intersection-count of
heading and content id sets divided by the heading-id count, times 100 (in
exact rational arithmetic), and is 0 when the heading id set is empty. -/
theorem c6_coverage_formula :
    ∀ (toc_entries : List TocEntry) (section_entries : List SectionEntry),
      (analyze_toc_vs_parsed toc_entries section_entries).coverage_percentage =
        ((((toc_entries.map (fun e => e.section_id)).toFinset ∩
            (section_entries.map (fun e => e.section_id)).toFinset).card : ℚ) /
          ((toc_entries.map (fun e => e.section_id)).toFinset.card : ℚ)) * 100 ∧
      ((toc_entries.map (fun e => e.section_id)).toFinset = ∅ →
        (analyze_toc_vs_parsed toc_entries section_entries).coverage_percentage = 0) := by
  intro toc sec
  constructor
  · simp only [analyze_toc_vs_parsed]
    by_cases h : (toc.map (fun e => e.section_id)).toFinset = ∅
    · rw [if_pos h, h]
      simp
    · rw [if_neg h]
  · intro h
    simp only [analyze_toc_vs_parsed]
    rw [if_pos h]

/-- C6 (witness): coverage of the empty run is 0. -/
theorem c6_witness :
    (analyze_toc_vs_parsed ([] : List TocEntry) ([] : List SectionEntry)).coverage_percentage
      = 0 :=
  (c6_coverage_formula [] []).2 (by decide)

/-- C7: `has_gap` flags exactly the pairs of equal-length paths that agree
on all but the last component, differ, and whose last components are not
consecutive; on level-2 siblings arriving as `2.4, 2.1, 2.2` exactly the
gap between `2.2` and `2.4` is flagged, siblings `2.1, 2.2, 2.3` yield no
gap, and the level transition `2.9 → 3.1` is not flagged. -/
theorem c7_gap_detection :
    (∀ (current_id next_id : String),
        has_gap current_id next_id = true ↔
          ((idParts current_id).length = (idParts next_id).length ∧
           (idParts current_id).dropLast = (idParts next_id).dropLast ∧
           idParts current_id ≠ idParts next_id ∧
           (idParts next_id).getLastD 0 ≠ (idParts current_id).getLastD 0 + 1)) ∧
    find_section_gaps [c7e24, c7e21, c7e22] =
      [{ level := 2, before_section := "2.2", after_section := "2.4",
         gap_description := "Missing sections between 2.2 and 2.4" }] ∧
    find_section_gaps [c7e21, c7e22, c7e23] = [] ∧
    find_section_gaps [c7e29, c7e31] = [] := by
  refine ⟨?_, rfl, rfl, rfl⟩
  intro c n
  simp only [has_gap]
  split_ifs with h1 h2 h3
  · constructor
    · intro _
      have h4 := (commonLen_pred_iff (idParts c) (idParts n) (idParts_ne_nil c) h1).mp h2
      exact ⟨h1, h4.1, h4.2, h3⟩
    · intro _; rfl
  · constructor
    · intro hff; exact absurd hff (by simp)
    · rintro ⟨_, _, _, h4⟩
      exact absurd h4 h3
  · constructor
    · intro hff; exact absurd hff (by simp)
    · rintro ⟨hl, hd, hne, _⟩
      exact absurd ((commonLen_pred_iff (idParts c) (idParts n) (idParts_ne_nil c) hl).mpr
        ⟨hd, hne⟩) h2
  · constructor
    · intro hff; exact absurd hff (by simp)
    · rintro ⟨hl, _, _, _⟩
      exact absurd hl h1

/-- C7 (witness): the flagged pair of the example. -/
theorem c7_witness : has_gap ("2.2") ("2.4") = true :=
  (c7_gap_detection.1 ("2.2") ("2.4")).mpr (by decide)

/-- C8 (counterexample): the Annex-prefixed TOC line of the claim matches no
pattern of the line parser and yields no heading. -/
theorem c8_annex_not_matched : extract_toc_entry c8AnnexLine ("D") = none := rfl

/-- C8 (amended): the line parser's pattern set tolerates `Chapter N` and
`Section N.M` prefixes but has no Annex alternative: the Annex line is
rejected while the Chapter and Section lines are matched. -/
theorem c8_pattern_set_amended :
    extract_toc_entry c8AnnexLine ("D") = none ∧
    (extract_toc_entry c8ChapterLine ("D")).isSome = true ∧
    (extract_toc_entry c8SectionLine ("D")).isSome = true := ⟨rfl, rfl, rfl⟩

/-- C9: every heading returned by the line parser has `level` equal to the
number of dotted path components of its section id and `parent_id` equal to
the dot-join of all but the last component (absent at level 1); concretely,
`3.1.2` gives level 3 and parent `3.1`, and `4` gives level 1 and no
parent. -/
theorem c9_level_parent_derivation :
    (∀ (line dt : String) (e : TocEntry), extract_toc_entry line dt = some e →
        e.level = (splitCh '.' e.section_id.toList).length ∧
        e.parent_id = (if 1 < (splitCh '.' e.section_id.toList).length then
            some (String.mk (joinDots ((splitCh '.' e.section_id.toList).dropLast)))
          else none)) ∧
    (extract_toc_entry c9LineA ("D")).map (fun e => (e.level, e.parent_id))
      = some (3, some ("3.1")) ∧
    (extract_toc_entry c9LineB ("D")).map (fun e => (e.level, e.parent_id))
      = some (1, none) := by
  refine ⟨?_, rfl, rfl⟩
  intro line dt e h
  obtain ⟨sid, t, p, he⟩ := extract_toc_entry_shape line dt e h
  subst he
  exact ⟨mkEntry_level dt sid t p, mkEntry_parent dt sid t p⟩

/-- C9 (witness): the derivation applied to the concrete level-3 line. -/
theorem c9_witness :
    c9EntryA.level = (splitCh '.' c9EntryA.section_id.toList).length ∧
    c9EntryA.parent_id = (if 1 < (splitCh '.' c9EntryA.section_id.toList).length then
        some (String.mk (joinDots ((splitCh '.' c9EntryA.section_id.toList).dropLast)))
      else none) :=
  c9_level_parent_derivation.1 c9LineA ("D") c9EntryA rfl

/-- C10 (counterexample): with a duplicated section id in the heading set,
the pipeline's own extraction yields a non-empty order-issues list, because
each duplicate is compared against the first extracted record with that
id. -/
theorem c10_duplicate_id_order_issue :
    (analyze_toc_vs_parsed c10TocDup (extract_sections c10Pages c10TocDup)).order_issues
      ≠ [] := by decide

/-- C10 (amended): every pipeline-extracted record is a field-for-field copy
of some heading with content attached (in particular its page equals the
originating heading's page), and when section ids are unique in the heading
set the reconciliation's order-issues list is empty. -/
theorem c10_copies_and_order_issues :
    ∀ (pages : List (Option String)) (toc_entries : List TocEntry),
      (∀ s ∈ extract_sections pages toc_entries,
          ∃ t ∈ toc_entries, s = mkSectionEntry t s.content ∧ s.page = t.page) ∧
      ((toc_entries.map (fun e => e.section_id)).Nodup →
        (analyze_toc_vs_parsed toc_entries
            (extract_sections pages toc_entries)).order_issues = []) := by
  intro pages toc
  constructor
  · intro s hs
    obtain ⟨t, ht, hmk, _⟩ := mem_extract_sections pages toc s hs
    exact ⟨t, ht, hmk, by rw [hmk]; rfl⟩
  · intro hnd
    simp only [analyze_toc_vs_parsed]
    rw [List.filterMap_eq_nil_iff]
    intro t ht
    by_cases hmem : t.section_id ∈ ((toc.map fun e => e.section_id).toFinset ∩
        (((extract_sections pages toc).map fun e => e.section_id).toFinset))
    · rw [if_pos hmem]
      cases hf : (extract_sections pages toc).find?
          (fun s => s.section_id = t.section_id) with
      | none => rfl
      | some p =>
          have hfind := List.find?_some hf
          have hpt : p.section_id = t.section_id := of_decide_eq_true hfind
          obtain ⟨t2, ht2, hmk, _⟩ :=
            mem_extract_sections pages toc p (List.mem_of_find?_eq_some hf)
          have hid2 : t2.section_id = p.section_id := by rw [hmk]; rfl
          have ht2t : t2 = t := List.inj_on_of_nodup_map hnd ht2 ht (by rw [hid2, hpt])
          have hpage : p.page = t.page := by rw [hmk, ht2t]; rfl
          simp [hpage]
    · rw [if_neg hmem]

/-- C10 (witness): the amended statement on the unique-id heading list. -/
theorem c10_witness :
    (analyze_toc_vs_parsed c10TocU (extract_sections c10Pages c10TocU)).order_issues = [] :=
  (c10_copies_and_order_issues c10Pages c10TocU).2 (by decide)

end USBPDParser
